import Mathlib

/-!
Shallow embedding of the WorkoutTimer application (src/app.js, second source
variant starting at the "Helpers" banner near line 458, identical to
src/unnamed/part_000): the step builder (`buildStepsForCircuit`, `buildSteps`),
the run-controller state machine (`stopTimer`, `startTimer`, `setStep`,
`goToNextStep`, `skipStep`, `resetWorkout`, and the `setInterval` tick body),
the progress query (`getProgressForStep`), and the input helper (`clampInt`).

JavaScript numbers are modelled as `Nat` for durations and counters that the
code keeps non-negative, and as `Int` for `secondsRemaining`, which the tick
handler decrements before testing `<= 0`.  The `setInterval` handle is
modelled as the Boolean `intervalActive` (JS: `intervalId !== null`).
DOM rendering, audio cues and speech are side effects with no influence on
the modelled state and are omitted.
-/

namespace WorkoutTimer

/-- Circuit tag: the `circuitId` field is always the string "A" or "B". -/
inductive CircuitId where
  | A
  | B
deriving DecidableEq

/-- Step type: the `type` field of a built step is always one of the four
string tags "exercise", "rest", "circuit_rest", "transition_rest". -/
inductive StepType where
  | exercise
  | rest
  | circuit_rest
  | transition_rest
deriving DecidableEq

/-- One exercise row from the setup list: `{ name, secondsOverride }`
(src/app.js `getExercisesFromList`; `secondsOverride` is `null` or a
positive integer). -/
structure ExerciseSpec where
  name : String
  secondsOverride : Option Nat
deriving DecidableEq

/-- Circuit A configuration: `{ repeats, exercises }`. -/
structure CircuitA where
  repeats : Nat
  exercises : List ExerciseSpec
deriving DecidableEq

/-- Circuit B configuration: `{ enabled, repeats, exercises }`. -/
structure CircuitB where
  enabled : Bool
  repeats : Nat
  exercises : List ExerciseSpec
deriving DecidableEq

/-- The workout configuration object built by `getWorkoutFromInputs`
(src/app.js lines 810-832). -/
structure Workout where
  workSeconds : Nat
  restBetweenExercisesSeconds : Nat
  restBetweenCircuitsSeconds : Nat
  transitionRestSeconds : Nat
  circuitA : CircuitA
  circuitB : CircuitB
deriving DecidableEq

/-- One step of the flattened run sequence:
`{ type, label, durationSeconds, circuitId }`. -/
structure Step where
  type : StepType
  label : String
  durationSeconds : Nat
  circuitId : CircuitId
deriving DecidableEq

instance : Inhabited Step := ⟨⟨StepType.exercise, "", 0, CircuitId.A⟩⟩

/-- The exercise ("work") step pushed for one exercise
(src/app.js lines 588-595): duration is `secondsOverride` when non-null,
else the global `workSeconds`. -/
def exerciseStep (circuitId : CircuitId) (workout : Workout) (ex : ExerciseSpec) : Step :=
  { type := StepType.exercise
    label := ex.name
    durationSeconds := ex.secondsOverride.getD workout.workSeconds
    circuitId := circuitId }

/-- The rest step pushed between consecutive exercises (src/app.js lines 599-604). -/
def restStep (circuitId : CircuitId) (workout : Workout) : Step :=
  { type := StepType.rest
    label := "Rest"
    durationSeconds := workout.restBetweenExercisesSeconds
    circuitId := circuitId }

/-- The circuit-rest step pushed between repeats (src/app.js lines 610-615). -/
def circuitRestStep (circuitId : CircuitId) (workout : Workout) : Step :=
  { type := StepType.circuit_rest
    label := "Circuit rest"
    durationSeconds := workout.restBetweenCircuitsSeconds
    circuitId := circuitId }

/-- The transition-rest step pushed before circuit B (src/app.js lines 628-633). -/
def transitionRestStep (workout : Workout) : Step :=
  { type := StepType.transition_rest
    label := "Transition rest"
    durationSeconds := workout.transitionRestSeconds
    circuitId := CircuitId.B }

/-- The inner loop of `buildStepsForCircuit` (src/app.js lines 586-606):
for each exercise push an exercise step, and after every exercise except the
last push a rest step when `restBetweenExercisesSeconds > 0`. -/
def stepsForOneRep (circuitId : CircuitId) (workout : Workout) :
    List ExerciseSpec → List Step
  | [] => []
  | [ex] => [exerciseStep circuitId workout ex]
  | ex :: ex2 :: tl =>
      exerciseStep circuitId workout ex ::
        ((if 0 < workout.restBetweenExercisesSeconds then [restStep circuitId workout] else [])
          ++ stepsForOneRep circuitId workout (ex2 :: tl))

/-- `buildStepsForCircuit(circuitId, workout, exercises, repeats)`
(src/app.js lines 582-620): `repeats` repetitions of the inner loop, with a
circuit-rest step after every repetition except the last when
`restBetweenCircuitsSeconds > 0`. -/
def buildStepsForCircuit (circuitId : CircuitId) (workout : Workout)
    (exercises : List ExerciseSpec) : Nat → List Step
  | 0 => []
  | 1 => stepsForOneRep circuitId workout exercises
  | reps + 2 =>
      stepsForOneRep circuitId workout exercises
        ++ (if 0 < workout.restBetweenCircuitsSeconds then [circuitRestStep circuitId workout] else [])
        ++ buildStepsForCircuit circuitId workout exercises (reps + 1)

/-- `buildSteps(workout)` (src/app.js lines 622-639): circuit A's steps,
then — when circuit B is enabled — an optional transition-rest step
(only when `transitionRestSeconds > 0`) followed by circuit B's steps. -/
def buildSteps (workout : Workout) : List Step :=
  buildStepsForCircuit CircuitId.A workout workout.circuitA.exercises workout.circuitA.repeats
    ++ (if workout.circuitB.enabled then
          (if 0 < workout.transitionRestSeconds then [transitionRestStep workout] else [])
            ++ buildStepsForCircuit CircuitId.B workout workout.circuitB.exercises
                workout.circuitB.repeats
        else [])

/-- Total duration shown on the setup screen
(`getTotalDurationSecondsForWorkout`, src/app.js lines 641-646). -/
def getTotalDurationSecondsForWorkout (w : Workout) : Nat :=
  (buildSteps w).foldl (fun acc s => acc + s.durationSeconds) 0

/-- The progress record returned by `getProgressForStep`
(src/app.js lines 844-866): `{ circuitId, round, exercise, exercisesPerRound,
totalRounds }`.  A JS `null` result is modelled as `Option.none`. -/
structure Progress where
  circuitId : CircuitId
  round : Nat
  exercise : Nat
  exercisesPerRound : Nat
  totalRounds : Nat
deriving DecidableEq

/-- The predicate of the counting loop in `getProgressForStep`
(src/app.js line 856): same circuit and type "exercise". -/
def isExerciseOf (circuitId : CircuitId) (s : Step) : Bool :=
  decide (s.circuitId = circuitId) && decide (s.type = StepType.exercise)

/-- `getProgressForStep(stepIndex)` (src/app.js lines 844-866).  The `workout`
and `steps` globals are passed explicitly.  `Math.ceil(exerciseCount /
exercisesPerRound)` on non-negative integers with a positive divisor equals
`(exerciseCount + exercisesPerRound - 1) / exercisesPerRound` in `Nat`
division. -/
def getProgressForStep (workout : Workout) (steps : List Step) (stepIndex : Nat) :
    Option Progress :=
  match steps.get? stepIndex with
  | none => none
  | some st =>
    let circuitId := st.circuitId
    let exercisesPerRound :=
      (if circuitId = CircuitId.B then workout.circuitB.exercises
       else workout.circuitA.exercises).length
    let totalRounds :=
      if circuitId = CircuitId.B then workout.circuitB.repeats
      else workout.circuitA.repeats
    if exercisesPerRound = 0 then none
    else
      let exerciseCount := (steps.take (stepIndex + 1)).countP (isExerciseOf circuitId)
      if exerciseCount = 0 then
        some ⟨circuitId, 1, 1, exercisesPerRound, totalRounds⟩
      else
        some ⟨circuitId, (exerciseCount + exercisesPerRound - 1) / exercisesPerRound,
          (exerciseCount - 1) % exercisesPerRound + 1, exercisesPerRound, totalRounds⟩

/-- The run-controller phases named by the spec.  The code keeps the Boolean
flags `isRunning`, `hasStarted`, `isFinished` instead of one enum. -/
inductive Phase where
  | NotStarted
  | Running
  | Paused
  | Finished
deriving DecidableEq

/-- The mutable module-level state of the run controller
(src/app.js lines 704-711).  `intervalActive` models `intervalId !== null`
(the `setInterval` handle); the cue-tracking variables
(`lastHalfCueStepIndex`, `lastFinalCueKey`, `lastSpokenRestStepIndex`) only
feed the audio cues and are omitted. -/
structure RunState where
  steps : List Step
  currentStepIndex : Nat
  secondsRemaining : Int
  intervalActive : Bool
  isRunning : Bool
  hasStarted : Bool
  isFinished : Bool
deriving DecidableEq

/-- The spec's phase, read off the flag encoding: `Finished` when
`isFinished`, else `Running` when `isRunning`, else `Paused` when
`hasStarted`, else `NotStarted` (this is how `updateRunControls` and
`render` interpret the flags). -/
def phase (s : RunState) : Phase :=
  if s.isFinished then Phase.Finished
  else if s.isRunning then Phase.Running
  else if s.hasStarted then Phase.Paused
  else Phase.NotStarted

/-- `stopTimer()` (src/app.js lines 871-878): clear the interval (if any)
and clear `isRunning`.  The pause button calls exactly this. -/
def stopTimer (s : RunState) : RunState :=
  { s with intervalActive := false, isRunning := false }

/-- `startTimer()` up to and including interval registration
(src/app.js lines 880-891): a no-op when already running, when `steps` is
empty, or when finished; otherwise set `isRunning` and `hasStarted` and
register the interval.  The start and resume buttons both call this. -/
def startTimer (s : RunState) : RunState :=
  if s.isRunning ∨ s.steps = [] ∨ s.isFinished then s
  else { s with isRunning := true, hasStarted := true, intervalActive := true }

/-- `setStep(index, previousStep)` (src/app.js lines 923-939): set the
current index and reload `secondsRemaining` from the step's duration.
Callers only pass in-range indices; the `previousStep` argument only selects
the spoken "Rest" cue and is omitted. -/
def setStep (s : RunState) (index : Nat) : RunState :=
  { s with currentStepIndex := index
           secondsRemaining := ((s.steps.getD index default).durationSeconds : Int) }

/-- `goToNextStep(autoContinue)` (src/app.js lines 941-959): stop the timer;
if `currentStepIndex + 1` is past the end, mark finished with zero seconds
remaining; otherwise clear `isFinished`, move to the next step, and restart
the timer when `autoContinue`. -/
def goToNextStep (s : RunState) (autoContinue : Bool) : RunState :=
  let s1 := stopTimer s
  if s.steps.length ≤ s.currentStepIndex + 1 then
    { s1 with isFinished := true, secondsRemaining := 0 }
  else
    let s2 := setStep { s1 with isFinished := false } (s.currentStepIndex + 1)
    if autoContinue then startTimer s2 else s2

/-- The body of the `setInterval` callback registered by `startTimer`
(src/app.js lines 889-920): decrement `secondsRemaining`; when it drops to
`<= 0`, advance with auto-continue.  The audio cues in the middle touch no
modelled state. -/
def tick (s : RunState) : RunState :=
  let s1 := { s with secondsRemaining := s.secondsRemaining - 1 }
  if s1.secondsRemaining ≤ 0 then goToNextStep s1 true else s1

/-- `skipStep()` (src/app.js lines 961-964): no-op on an empty sequence,
else advance, auto-continuing exactly when currently running. -/
def skipStep (s : RunState) : RunState :=
  if s.steps = [] then s else goToNextStep s s.isRunning

/-- `resetWorkout()` (src/app.js lines 966-977): stop the timer, return to
step 0 when the sequence is non-empty, clear `hasStarted` and `isFinished`. -/
def resetWorkout (s : RunState) : RunState :=
  let s1 := stopTimer s
  let s2 := if s1.steps = [] then s1 else setStep s1 0
  { s2 with hasStarted := false, isFinished := false }

/-- JavaScript `Number.parseInt(value, 10)` on a string, modelled as
`Option Int` (`none` for `NaN`): skip leading whitespace, read an optional
sign, then the longest run of decimal digits; `NaN` when that run is empty. -/
def digitsValue (cs : List Char) : Option Nat :=
  let ds := cs.takeWhile Char.isDigit
  if ds = [] then none
  else some (ds.foldl (fun acc c => acc * 10 + (c.toNat - 48)) 0)

/-- See `digitsValue`: the sign-and-digits part of `Number.parseInt`. -/
def parseIntJS (value : String) : Option Int :=
  let cs := value.data.dropWhile (fun c =>
    c = ' ' ∨ c = '\t' ∨ c = '\n' ∨ c = '\r')
  match cs with
  | '-' :: tl => (digitsValue tl).map (fun n => -(n : Int))
  | '+' :: tl => (digitsValue tl).map (fun n => (n : Int))
  | _ => (digitsValue cs).map (fun n => (n : Int))

/-- `clampInt(value, min, fallback)` (src/app.js lines 460-464): the
fallback when parsing fails, otherwise the parsed value clamped from below
by `min`. -/
def clampInt (value : String) (min : Int) (fallback : Int) : Int :=
  match parseIntJS value with
  | none => fallback
  | some n => max min n

/-- Hypothesis discharge for C3 at a concrete configuration: circuit A with
two exercises and two repeats, circuit B disabled,
`workSeconds = 45`, `restBetweenExercisesSeconds = 15`,
`restBetweenCircuitsSeconds = 60` — the spec's seven-step scenario. -/
def scenarioWorkout : Workout :=
  { workSeconds := 45
    restBetweenExercisesSeconds := 15
    restBetweenCircuitsSeconds := 60
    transitionRestSeconds := 30
    circuitA := { repeats := 2, exercises := [⟨"p", none⟩, ⟨"q", none⟩] }
    circuitB := { enabled := false, repeats := 2, exercises := [⟨"r", none⟩] } }

/-- The scenario configuration with circuit B enabled (one exercise, two
repeats) and `transitionRestSeconds = 30`. -/
def scenarioWorkoutB : Workout :=
  { scenarioWorkout with
      circuitB := { enabled := true, repeats := 2, exercises := [⟨"r", none⟩] } }

/-- Running state on the scenario workout's first step. -/
def scenarioRun : RunState :=
  { steps := buildSteps scenarioWorkout
    currentStepIndex := 0
    secondsRemaining := 45
    intervalActive := true
    isRunning := true
    hasStarted := true
    isFinished := false }

/-- The scenario run after finishing: last step, nothing left, stopped. -/
def scenarioFinished : RunState :=
  { steps := buildSteps scenarioWorkout
    currentStepIndex := 6
    secondsRemaining := 0
    intervalActive := false
    isRunning := false
    hasStarted := true
    isFinished := true }

/-! ### Counting and shape lemmas about the step builder -/

/-- Counting predicate for one step type. -/
def isType (t : StepType) (s : Step) : Bool :=
  decide (s.type = t)

theorem mem_stepsForOneRep (c : CircuitId) (w : Workout) (exs : List ExerciseSpec)
    (s : Step) (hs : s ∈ stepsForOneRep c w exs) :
    s.circuitId = c ∧ (s.type = StepType.exercise ∨ s.type = StepType.rest) := by
  induction exs with
  | nil => simp [stepsForOneRep] at hs
  | cons ex tl ih =>
    cases tl with
    | nil =>
      simp [stepsForOneRep] at hs
      subst hs
      exact ⟨rfl, Or.inl rfl⟩
    | cons ex2 tl2 =>
      simp only [stepsForOneRep, List.mem_cons, List.mem_append] at hs
      rcases hs with h | h | h
      · subst h; exact ⟨rfl, Or.inl rfl⟩
      · rcases Decidable.em (0 < w.restBetweenExercisesSeconds) with hr | hr
        · simp [hr] at h
          subst h; exact ⟨rfl, Or.inr rfl⟩
        · simp [hr] at h
      · exact ih h

theorem mem_buildStepsForCircuit (c : CircuitId) (w : Workout) (exs : List ExerciseSpec)
    (reps : Nat) (s : Step) (hs : s ∈ buildStepsForCircuit c w exs reps) :
    s.circuitId = c ∧ s.type ≠ StepType.transition_rest := by
  induction reps with
  | zero => simp [buildStepsForCircuit] at hs
  | succ n ih =>
    cases n with
    | zero =>
      have h := mem_stepsForOneRep c w exs s hs
      refine ⟨h.1, ?_⟩
      rcases h.2 with h2 | h2 <;> simp [h2]
    | succ m =>
      simp only [buildStepsForCircuit, List.mem_append] at hs
      rcases hs with (h | h) | h
      · have h' := mem_stepsForOneRep c w exs s h
        refine ⟨h'.1, ?_⟩
        rcases h'.2 with h2 | h2 <;> simp [h2]
      · rcases Decidable.em (0 < w.restBetweenCircuitsSeconds) with hr | hr
        · simp [hr] at h
          subst h
          exact ⟨rfl, by simp [circuitRestStep]⟩
        · simp [hr] at h
      · exact ih h

theorem stepsForOneRep_countP_exercise (c : CircuitId) (w : Workout)
    (exs : List ExerciseSpec) :
    (stepsForOneRep c w exs).countP (isType StepType.exercise) = exs.length := by
  induction exs with
  | nil => simp [stepsForOneRep]
  | cons ex tl ih =>
    cases tl with
    | nil => simp [stepsForOneRep, isType, exerciseStep, List.countP_cons]
    | cons ex2 tl2 =>
      rcases Decidable.em (0 < w.restBetweenExercisesSeconds) with hr | hr <;>
        simp [stepsForOneRep, hr, List.countP_cons, List.countP_append, isType,
          exerciseStep, restStep, ih]

theorem stepsForOneRep_countP_rest (c : CircuitId) (w : Workout)
    (exs : List ExerciseSpec) :
    (stepsForOneRep c w exs).countP (isType StepType.rest)
      = if 0 < w.restBetweenExercisesSeconds then exs.length - 1 else 0 := by
  induction exs with
  | nil => simp [stepsForOneRep]
  | cons ex tl ih =>
    cases tl with
    | nil => simp [stepsForOneRep, isType, exerciseStep, List.countP_cons]
    | cons ex2 tl2 =>
      rcases Decidable.em (0 < w.restBetweenExercisesSeconds) with hr | hr <;>
        simp [stepsForOneRep, hr, List.countP_cons, List.countP_append, isType,
          exerciseStep, restStep, ih]

theorem stepsForOneRep_countP_eq_zero (c : CircuitId) (w : Workout)
    (exs : List ExerciseSpec) (t : StepType)
    (ht : t ≠ StepType.exercise) (ht' : t ≠ StepType.rest) :
    (stepsForOneRep c w exs).countP (isType t) = 0 := by
  refine List.countP_eq_zero.mpr ?_
  intro s hs
  have h := (mem_stepsForOneRep c w exs s hs).2
  simp only [isType, decide_eq_true_eq]
  rcases h with h | h <;> rw [h]
  · exact fun hc => ht hc.symm
  · exact fun hc => ht' hc.symm

theorem buildStepsForCircuit_countP_exercise (c : CircuitId) (w : Workout)
    (exs : List ExerciseSpec) (reps : Nat) :
    (buildStepsForCircuit c w exs reps).countP (isType StepType.exercise)
      = reps * exs.length := by
  induction reps with
  | zero => simp [buildStepsForCircuit]
  | succ n ih =>
    cases n with
    | zero => simp [buildStepsForCircuit, stepsForOneRep_countP_exercise]
    | succ m =>
      rcases Decidable.em (0 < w.restBetweenCircuitsSeconds) with hr | hr <;>
        simp [buildStepsForCircuit, hr, List.countP_cons, List.countP_append,
          stepsForOneRep_countP_exercise, isType, circuitRestStep, ih] <;> ring

theorem buildStepsForCircuit_countP_rest (c : CircuitId) (w : Workout)
    (exs : List ExerciseSpec) (reps : Nat) :
    (buildStepsForCircuit c w exs reps).countP (isType StepType.rest)
      = reps * (if 0 < w.restBetweenExercisesSeconds then exs.length - 1 else 0) := by
  induction reps with
  | zero => simp [buildStepsForCircuit]
  | succ n ih =>
    cases n with
    | zero => simp [buildStepsForCircuit, stepsForOneRep_countP_rest]
    | succ m =>
      rcases Decidable.em (0 < w.restBetweenCircuitsSeconds) with hr | hr <;>
        simp [buildStepsForCircuit, hr, List.countP_cons, List.countP_append,
          stepsForOneRep_countP_rest, isType, circuitRestStep, ih] <;>
        split_ifs <;> ring

theorem buildStepsForCircuit_countP_crest (c : CircuitId) (w : Workout)
    (exs : List ExerciseSpec) (reps : Nat) :
    (buildStepsForCircuit c w exs reps).countP (isType StepType.circuit_rest)
      = (reps - 1) * (if 0 < w.restBetweenCircuitsSeconds then 1 else 0) := by
  induction reps with
  | zero => simp [buildStepsForCircuit]
  | succ n ih =>
    cases n with
    | zero =>
      simp [buildStepsForCircuit,
        stepsForOneRep_countP_eq_zero c w exs StepType.circuit_rest (by simp) (by simp)]
    | succ m =>
      rcases Decidable.em (0 < w.restBetweenCircuitsSeconds) with hr | hr <;>
        simp [buildStepsForCircuit, hr, List.countP_cons, List.countP_append,
          stepsForOneRep_countP_eq_zero c w exs StepType.circuit_rest (by simp) (by simp),
          isType, circuitRestStep, ih]

theorem buildStepsForCircuit_countP_trans (c : CircuitId) (w : Workout)
    (exs : List ExerciseSpec) (reps : Nat) :
    (buildStepsForCircuit c w exs reps).countP (isType StepType.transition_rest) = 0 := by
  refine List.countP_eq_zero.mpr ?_
  intro s hs
  have h := (mem_buildStepsForCircuit c w exs reps s hs).2
  simpa [isType] using h

theorem stepsForOneRep_filter_exercise (c : CircuitId) (w : Workout)
    (exs : List ExerciseSpec) :
    (stepsForOneRep c w exs).filter (isType StepType.exercise)
      = exs.map (exerciseStep c w) := by
  induction exs with
  | nil => simp [stepsForOneRep]
  | cons ex tl ih =>
    cases tl with
    | nil => simp [stepsForOneRep, isType, exerciseStep, List.filter_cons]
    | cons ex2 tl2 =>
      rcases Decidable.em (0 < w.restBetweenExercisesSeconds) with hr | hr <;>
        simp [stepsForOneRep, hr, List.filter_cons, List.filter_append, isType,
          exerciseStep, restStep, ih]

theorem buildStepsForCircuit_filter_exercise (c : CircuitId) (w : Workout)
    (exs : List ExerciseSpec) (reps : Nat) :
    (buildStepsForCircuit c w exs reps).filter (isType StepType.exercise)
      = (List.replicate reps exs).flatten.map (exerciseStep c w) := by
  induction reps with
  | zero => simp [buildStepsForCircuit]
  | succ n ih =>
    cases n with
    | zero => simp [buildStepsForCircuit, stepsForOneRep_filter_exercise]
    | succ m =>
      rcases Decidable.em (0 < w.restBetweenCircuitsSeconds) with hr | hr <;>
        simp [buildStepsForCircuit, hr, List.filter_cons, List.filter_append,
          stepsForOneRep_filter_exercise, isType, circuitRestStep, ih,
          List.replicate_succ, List.flatten_cons]

theorem buildStepsForCircuit_filter_trans (c : CircuitId) (w : Workout)
    (exs : List ExerciseSpec) (reps : Nat) :
    (buildStepsForCircuit c w exs reps).filter (isType StepType.transition_rest) = [] := by
  refine List.filter_eq_nil_iff.mpr ?_
  intro s hs
  have h := (mem_buildStepsForCircuit c w exs reps s hs).2
  simpa [isType] using h

/-- Every `Step` has exactly one of the four types, so the four per-type
counts partition the list. -/
theorem length_eq_sum_countP (l : List Step) :
    l.length = l.countP (isType StepType.exercise) + l.countP (isType StepType.rest)
      + l.countP (isType StepType.circuit_rest)
      + l.countP (isType StepType.transition_rest) := by
  induction l with
  | nil => simp
  | cons s tl ih =>
    rcases hty : s.type with h | h | h | h <;>
      simp [List.countP_cons, isType, hty, ih] <;> omega

/-- The transition-rest steps of the whole sequence: exactly one, of the
configured duration, when circuit B is enabled and `transitionRestSeconds`
is positive; none otherwise — for every configuration, whatever
`restBetweenCircuitsSeconds` is. -/
theorem buildSteps_filter_trans (w : Workout) :
    (buildSteps w).filter (isType StepType.transition_rest)
      = if w.circuitB.enabled = true ∧ 0 < w.transitionRestSeconds
        then [transitionRestStep w] else [] := by
  unfold buildSteps
  cases hb : w.circuitB.enabled with
  | false => simp [hb, List.filter_append, buildStepsForCircuit_filter_trans]
  | true =>
    rcases Decidable.em (0 < w.transitionRestSeconds) with ht | ht <;>
      simp [hb, ht, List.filter_append, List.filter_cons,
        buildStepsForCircuit_filter_trans, isType, transitionRestStep]

/-- C1: for every `WorkoutConfig` with `circuitB.enabled` and
`transitionRestSeconds > 0`, `build` emits exactly one transition-rest step,
of duration `transitionRestSeconds`, placed after all of circuit A's steps
and immediately before circuit B's first step; the transition steps of the
output do not depend on `restBetweenCircuitsSeconds`; and no transition-rest
step is emitted when circuit B is disabled or `transitionRestSeconds = 0`. -/
theorem C1_transitionRest (w : Workout) :
    ((buildSteps w).filter (isType StepType.transition_rest)
        = if w.circuitB.enabled = true ∧ 0 < w.transitionRestSeconds
          then [transitionRestStep w] else [])
    ∧ (transitionRestStep w).durationSeconds = w.transitionRestSeconds
    ∧ (w.circuitB.enabled = true → 0 < w.transitionRestSeconds →
        buildSteps w
          = buildStepsForCircuit CircuitId.A w w.circuitA.exercises w.circuitA.repeats
            ++ transitionRestStep w
              :: buildStepsForCircuit CircuitId.B w w.circuitB.exercises
                  w.circuitB.repeats)
    ∧ (∀ r : Nat,
        (buildSteps { w with restBetweenCircuitsSeconds := r }).filter
            (isType StepType.transition_rest)
          = (buildSteps w).filter (isType StepType.transition_rest)) := by
  refine ⟨buildSteps_filter_trans w, rfl, ?_, ?_⟩
  · intro hb ht
    simp [buildSteps, hb, ht]
  · intro r
    rw [buildSteps_filter_trans, buildSteps_filter_trans]
    simp [transitionRestStep]

/-- C2: the exercise steps of the built sequence are, in order, exactly one
step per exercise occurrence (each exercise of circuit A, `repeats` times,
then — when enabled — each exercise of circuit B, `repeats` times), and the
step built for an exercise has duration `secondsOverride` when the override
is present and `workSeconds` otherwise; an exercise with a 60-second
override always yields a 60-second step. -/
theorem C2_exerciseDurations (w : Workout) :
    ((buildSteps w).filter (isType StepType.exercise)
        = (List.replicate w.circuitA.repeats w.circuitA.exercises).flatten.map
            (exerciseStep CircuitId.A w)
          ++ (if w.circuitB.enabled then
                (List.replicate w.circuitB.repeats w.circuitB.exercises).flatten.map
                  (exerciseStep CircuitId.B w)
              else []))
    ∧ (∀ (c : CircuitId) (ex : ExerciseSpec),
        (exerciseStep c w ex).durationSeconds
          = match ex.secondsOverride with
            | some o => o
            | none => w.workSeconds)
    ∧ (∀ (c : CircuitId) (nm : String),
        (exerciseStep c w ⟨nm, some 60⟩).durationSeconds = 60) := by
  refine ⟨?_, ?_, fun c nm => rfl⟩
  · unfold buildSteps
    cases hb : w.circuitB.enabled with
    | false => simp [hb, List.filter_append, buildStepsForCircuit_filter_exercise]
    | true =>
      rcases Decidable.em (0 < w.transitionRestSeconds) with ht | ht <;>
        simp [hb, ht, List.filter_append, List.filter_cons,
          buildStepsForCircuit_filter_exercise, isType, transitionRestStep]
  · intro c ex
    cases ex with
    | mk nm ov => cases ov <;> rfl

/-- C3: with circuit B disabled and circuit A holding `N ≥ 1` exercises and
`R` repeats, the built sequence has exactly `R * N` exercise steps,
`R * (N - 1)` rest steps when `restBetweenExercisesSeconds > 0` (else none),
`R - 1` circuit-rest steps when `restBetweenCircuitsSeconds > 0` (else
none), and no steps of any other kind. -/
theorem C3_stepCounts (w : Workout) (hB : w.circuitB.enabled = false)
    (hN : 1 ≤ w.circuitA.exercises.length) (hR : 1 ≤ w.circuitA.repeats) :
    (buildSteps w).countP (isType StepType.exercise)
        = w.circuitA.repeats * w.circuitA.exercises.length
    ∧ (buildSteps w).countP (isType StepType.rest)
        = (if 0 < w.restBetweenExercisesSeconds
           then w.circuitA.repeats * (w.circuitA.exercises.length - 1) else 0)
    ∧ (buildSteps w).countP (isType StepType.circuit_rest)
        = (if 0 < w.restBetweenCircuitsSeconds then w.circuitA.repeats - 1 else 0)
    ∧ (buildSteps w).countP (isType StepType.transition_rest) = 0
    ∧ (buildSteps w).length
        = (buildSteps w).countP (isType StepType.exercise)
          + (buildSteps w).countP (isType StepType.rest)
          + (buildSteps w).countP (isType StepType.circuit_rest) := by
  have hu : buildSteps w
      = buildStepsForCircuit CircuitId.A w w.circuitA.exercises w.circuitA.repeats := by
    simp [buildSteps, hB]
  rw [hu]
  refine ⟨buildStepsForCircuit_countP_exercise _ _ _ _, ?_, ?_, ?_, ?_⟩
  · rw [buildStepsForCircuit_countP_rest]
    split_ifs <;> ring
  · rw [buildStepsForCircuit_countP_crest]
    split_ifs <;> ring
  · exact buildStepsForCircuit_countP_trans _ _ _ _
  · rw [length_eq_sum_countP, buildStepsForCircuit_countP_trans]
    omega

/-- Witness for C3: the scenario configuration satisfies the hypotheses and
the concrete counts follow by applying the theorem there. -/
theorem C3_stepCounts_witness :
    scenarioWorkout.circuitB.enabled = false
    ∧ 1 ≤ scenarioWorkout.circuitA.exercises.length
    ∧ 1 ≤ scenarioWorkout.circuitA.repeats
    ∧ (buildSteps scenarioWorkout).countP (isType StepType.exercise) = 4
    ∧ (buildSteps scenarioWorkout).countP (isType StepType.rest) = 2
    ∧ (buildSteps scenarioWorkout).countP (isType StepType.circuit_rest) = 1
    ∧ (buildSteps scenarioWorkout).length = 7 := by
  have h := C3_stepCounts scenarioWorkout (by decide) (by decide) (by decide)
  refine ⟨by decide, by decide, by decide, ?_, ?_, ?_, ?_⟩
  · rw [h.1]; decide
  · rw [h.2.1]; decide
  · rw [h.2.2.1]; decide
  · rw [h.2.2.2.2, h.1, h.2.1, h.2.2.1]; decide

/-- Witness for C1: the scenario configuration with circuit B enabled and
`transitionRestSeconds = 30` satisfies the hypotheses, and its sequence is
circuit A's steps, then the transition-rest step, then circuit B's steps. -/
theorem C1_transitionRest_witness :
    (scenarioWorkoutB.circuitB.enabled = true
      ∧ 0 < scenarioWorkoutB.transitionRestSeconds)
    ∧ buildSteps scenarioWorkoutB
      = buildStepsForCircuit CircuitId.A scenarioWorkoutB
          scenarioWorkoutB.circuitA.exercises scenarioWorkoutB.circuitA.repeats
        ++ transitionRestStep scenarioWorkoutB
          :: buildStepsForCircuit CircuitId.B scenarioWorkoutB
              scenarioWorkoutB.circuitB.exercises scenarioWorkoutB.circuitB.repeats :=
  ⟨⟨rfl, by decide⟩, (C1_transitionRest scenarioWorkoutB).2.2.1 rfl (by decide)⟩

/-- Within its own circuit, the counting predicate of `getProgressForStep`
counts exactly the exercise steps. -/
theorem buildStepsForCircuit_countP_isExerciseOf_self (c : CircuitId) (w : Workout)
    (exs : List ExerciseSpec) (reps : Nat) :
    (buildStepsForCircuit c w exs reps).countP (isExerciseOf c) = reps * exs.length := by
  rw [← buildStepsForCircuit_countP_exercise c w exs reps]
  apply List.countP_congr
  intro s hs
  have h := (mem_buildStepsForCircuit c w exs reps s hs).1
  simp [isExerciseOf, isType, h]

/-- Steps of the other circuit never match the counting predicate. -/
theorem buildStepsForCircuit_countP_isExerciseOf_other (c c' : CircuitId)
    (hcc : c ≠ c') (w : Workout) (exs : List ExerciseSpec) (reps : Nat) :
    (buildStepsForCircuit c' w exs reps).countP (isExerciseOf c) = 0 := by
  refine List.countP_eq_zero.mpr ?_
  intro s hs
  have h := (mem_buildStepsForCircuit c' w exs reps s hs).1
  simp [isExerciseOf, h, Ne.symm hcc]

/-- Total number of circuit-A exercise steps in the whole sequence. -/
theorem buildSteps_countP_isExerciseOf_A (w : Workout) :
    (buildSteps w).countP (isExerciseOf CircuitId.A)
      = w.circuitA.repeats * w.circuitA.exercises.length := by
  unfold buildSteps
  rw [List.countP_append, buildStepsForCircuit_countP_isExerciseOf_self]
  cases hb : w.circuitB.enabled with
  | false => simp
  | true =>
    rcases Decidable.em (0 < w.transitionRestSeconds) with ht | ht <;>
      simp [ht, List.countP_append, List.countP_cons,
        buildStepsForCircuit_countP_isExerciseOf_other CircuitId.A CircuitId.B (by decide),
        isExerciseOf, transitionRestStep]

/-- Total number of circuit-B exercise steps in the whole sequence when
circuit B is enabled. -/
theorem buildSteps_countP_isExerciseOf_B (w : Workout)
    (hb : w.circuitB.enabled = true) :
    (buildSteps w).countP (isExerciseOf CircuitId.B)
      = w.circuitB.repeats * w.circuitB.exercises.length := by
  unfold buildSteps
  rw [List.countP_append]
  rw [buildStepsForCircuit_countP_isExerciseOf_other CircuitId.B CircuitId.A (by decide)]
  rcases Decidable.em (0 < w.transitionRestSeconds) with ht | ht <;>
    simp [hb, ht, List.countP_append, List.countP_cons,
      buildStepsForCircuit_countP_isExerciseOf_self, isExerciseOf, transitionRestStep]

/-- A step tagged with circuit B only appears when circuit B is enabled. -/
theorem mem_buildSteps_B_enabled (w : Workout) (s : Step)
    (hs : s ∈ buildSteps w) (hc : s.circuitId = CircuitId.B) :
    w.circuitB.enabled = true := by
  cases hb : w.circuitB.enabled with
  | true => rfl
  | false =>
    exfalso
    rw [buildSteps, hb] at hs
    simp at hs
    have h := (mem_buildStepsForCircuit CircuitId.A w
      w.circuitA.exercises w.circuitA.repeats s hs).1
    rw [hc] at h
    cases h

/-- Ceiling-division bounds used by the progress query: with a positive
group size `N` and a count between 1 and `R * N`, the 1-based round number
lies in `[1, R]`. -/
theorem ceilDiv_bounds (cnt N R : Nat) (hN : 0 < N) (h1 : 1 ≤ cnt)
    (h2 : cnt ≤ R * N) :
    1 ≤ (cnt + N - 1) / N ∧ (cnt + N - 1) / N ≤ R := by
  constructor
  · rw [Nat.le_div_iff_mul_le hN]
    omega
  · have hRN : R * N + N = (R + 1) * N := by ring
    have hlt : cnt + N - 1 < (R + 1) * N := by omega
    have := (Nat.div_lt_iff_lt_mul hN).mpr hlt
    omega

/-! ### Run-controller claims -/

/-- C4: on a non-empty step sequence, a tick in a Running state (which
always has at least one second remaining) decrements `secondsRemaining`;
when the decremented value reaches 0 and a next step exists, the controller
moves to it, reloads its full duration, and stays Running (auto-continue);
when the decremented value reaches 0 on the last step, the phase becomes
Finished, `secondsRemaining` becomes 0, and the interval is cleared. -/
theorem C4_tick (s : RunState) (hne : s.steps ≠ [])
    (hrun : s.isRunning = true) (hpos : 1 ≤ s.secondsRemaining) :
    (2 ≤ s.secondsRemaining →
      tick s = { s with secondsRemaining := s.secondsRemaining - 1 })
    ∧ (s.secondsRemaining = 1 → s.currentStepIndex + 1 < s.steps.length →
        (tick s).currentStepIndex = s.currentStepIndex + 1
        ∧ (tick s).secondsRemaining
            = ((s.steps.getD (s.currentStepIndex + 1) default).durationSeconds : Int)
        ∧ phase (tick s) = Phase.Running)
    ∧ (s.secondsRemaining = 1 → s.steps.length ≤ s.currentStepIndex + 1 →
        phase (tick s) = Phase.Finished
        ∧ (tick s).secondsRemaining = 0
        ∧ (tick s).intervalActive = false) := by
  refine ⟨?_, ?_, ?_⟩
  · intro h2
    have hc : ¬(s.secondsRemaining - 1 ≤ 0) := by omega
    simp [tick, hc]
  · intro h1 hlt
    have hc : s.secondsRemaining - 1 ≤ 0 := by omega
    have hnl : ¬(s.steps.length ≤ s.currentStepIndex + 1) := by omega
    simp [tick, hc, goToNextStep, hnl, stopTimer, setStep, startTimer, hne, phase]
  · intro h1 hge
    have hc : s.secondsRemaining - 1 ≤ 0 := by omega
    simp [tick, hc, goToNextStep, hge, stopTimer, phase]

/-- Witness for C4: on the scenario run at one second remaining, a tick
advances to step 1 (the 15-second rest) and stays Running. -/
theorem C4_tick_witness :
    (({ scenarioRun with secondsRemaining := 1 } : RunState).steps ≠ []
      ∧ ({ scenarioRun with secondsRemaining := 1 } : RunState).isRunning = true
      ∧ 1 ≤ ({ scenarioRun with secondsRemaining := 1 } : RunState).secondsRemaining)
    ∧ (tick { scenarioRun with secondsRemaining := 1 }).currentStepIndex = 1
    ∧ (tick { scenarioRun with secondsRemaining := 1 }).secondsRemaining = 15
    ∧ phase (tick { scenarioRun with secondsRemaining := 1 }) = Phase.Running := by
  have h := (C4_tick { scenarioRun with secondsRemaining := 1 }
      (by decide) rfl (by decide)).2.1 rfl (by decide)
  exact ⟨⟨by decide, rfl, by decide⟩, h.1, by rw [h.2.1]; decide, h.2.2⟩

/-- C5: on a non-empty sequence, skipping while on the last step of a
non-Finished state goes straight to Finished with zero seconds remaining,
whatever `secondsRemaining` was. -/
theorem C5_skipLastFinishes (s : RunState) (hne : s.steps ≠ [])
    (hfin : s.isFinished = false)
    (hlast : s.currentStepIndex = s.steps.length - 1) :
    phase (skipStep s) = Phase.Finished ∧ (skipStep s).secondsRemaining = 0 := by
  have hlen : 0 < s.steps.length := List.length_pos.mpr hne
  have hge : s.steps.length ≤ s.currentStepIndex + 1 := by omega
  simp [skipStep, hne, goToNextStep, hge, stopTimer, phase]

/-- Witness for C5: skipping the scenario run's last step (index 6) with 45
seconds still on the clock finishes the workout at zero. -/
theorem C5_skipLastFinishes_witness :
    (({ scenarioRun with currentStepIndex := 6 } : RunState).steps ≠ []
      ∧ ({ scenarioRun with currentStepIndex := 6 } : RunState).isFinished = false
      ∧ ({ scenarioRun with currentStepIndex := 6 } : RunState).currentStepIndex
          = ({ scenarioRun with currentStepIndex := 6 } : RunState).steps.length - 1)
    ∧ phase (skipStep { scenarioRun with currentStepIndex := 6 }) = Phase.Finished
    ∧ (skipStep { scenarioRun with currentStepIndex := 6 }).secondsRemaining = 0 := by
  have h := C5_skipLastFinishes { scenarioRun with currentStepIndex := 6 }
      (by decide) rfl (by decide)
  exact ⟨⟨by decide, rfl, by decide⟩, h.1, h.2⟩

/-- C7: pausing (the pause button calls `stopTimer`) is idempotent, and
starting (`startTimer`, also the resume button) while already Running
changes nothing — in particular not `secondsRemaining`. -/
theorem C7_pauseStartIdempotent (s : RunState) :
    stopTimer (stopTimer s) = stopTimer s
    ∧ (s.isRunning = true → startTimer s = s) := by
  refine ⟨rfl, fun h => ?_⟩
  simp [startTimer, h]

/-- Witness for C7: applying it to the scenario's Running state. -/
theorem C7_pauseStartIdempotent_witness :
    (stopTimer (stopTimer scenarioRun) = stopTimer scenarioRun
      ∧ scenarioRun.isRunning = true)
    ∧ startTimer scenarioRun = scenarioRun :=
  ⟨⟨(C7_pauseStartIdempotent scenarioRun).1, rfl⟩,
    (C7_pauseStartIdempotent scenarioRun).2 rfl⟩

/-- The advance step keeps the step list, keeps `currentStepIndex` inside
`[0, len)`, and, when it marks the run finished, leaves the index on the
last step. -/
theorem goToNextStep_index (s : RunState) (auto : Bool)
    (hin : s.currentStepIndex < s.steps.length) :
    (goToNextStep s auto).steps = s.steps
    ∧ (goToNextStep s auto).currentStepIndex < s.steps.length
    ∧ ((goToNextStep s auto).isFinished = true →
        (goToNextStep s auto).currentStepIndex + 1 = s.steps.length) := by
  rcases Decidable.em (s.steps.length ≤ s.currentStepIndex + 1) with hge | hlt
  · have : s.currentStepIndex + 1 = s.steps.length := by omega
    simp [goToNextStep, hge, stopTimer, hin, this]
  · have hne : s.steps ≠ [] := by
      intro h
      rw [h] at hin
      simp at hin
    cases auto with
    | false =>
      simp [goToNextStep, hlt, stopTimer, setStep]
      omega
    | true =>
      simp [goToNextStep, hlt, stopTimer, setStep, startTimer, hne]
      omega


/-- C8: on a non-empty sequence, every controller operation — `startTimer`
(start and resume buttons), the tick body, `stopTimer` (pause button),
`skipStep`, `resetWorkout` — keeps the step list and keeps
`currentStepIndex` inside `[0, len(steps))`; and when a tick or skip is the
one that turns `isFinished` on, it leaves the index on the last step
(`index + 1 = len`) instead of moving it past the end. -/
theorem C8_indexInvariant (s : RunState) (hne : s.steps ≠ [])
    (hin : s.currentStepIndex < s.steps.length) :
    ((startTimer s).steps = s.steps
      ∧ (startTimer s).currentStepIndex < s.steps.length)
    ∧ ((tick s).steps = s.steps ∧ (tick s).currentStepIndex < s.steps.length)
    ∧ ((stopTimer s).steps = s.steps
      ∧ (stopTimer s).currentStepIndex < s.steps.length)
    ∧ ((skipStep s).steps = s.steps
      ∧ (skipStep s).currentStepIndex < s.steps.length)
    ∧ ((resetWorkout s).steps = s.steps
      ∧ (resetWorkout s).currentStepIndex < s.steps.length)
    ∧ (s.isFinished = false → (tick s).isFinished = true →
        (tick s).currentStepIndex + 1 = s.steps.length)
    ∧ (s.isFinished = false → (skipStep s).isFinished = true →
        (skipStep s).currentStepIndex + 1 = s.steps.length) := by
  have hlen : 0 < s.steps.length := List.length_pos.mpr hne
  have hstart : (startTimer s).steps = s.steps
      ∧ (startTimer s).currentStepIndex = s.currentStepIndex := by
    unfold startTimer
    split <;> exact ⟨rfl, rfl⟩
  have hskipeq : skipStep s = goToNextStep s s.isRunning := by
    simp [skipStep, hne]
  have hskip := goToNextStep_index s s.isRunning hin
  refine ⟨⟨hstart.1, hstart.2 ▸ hin⟩, ?_, ⟨rfl, hin⟩,
    ⟨hskipeq ▸ hskip.1, hskipeq ▸ hskip.2.1⟩, ?_, ?_, ?_⟩
  · rcases Decidable.em (s.secondsRemaining - 1 ≤ 0) with hc | hc
    · have he : tick s
          = goToNextStep { s with secondsRemaining := s.secondsRemaining - 1 } true := by
        simp [tick, hc]
      have h := goToNextStep_index
        { s with secondsRemaining := s.secondsRemaining - 1 } true hin
      exact ⟨he ▸ h.1, he ▸ h.2.1⟩
    · have he : tick s = { s with secondsRemaining := s.secondsRemaining - 1 } := by
        simp [tick, hc]
      exact ⟨he ▸ rfl, he ▸ hin⟩
  · simp [resetWorkout, hne, stopTimer, setStep]
    omega
  · intro hf0 hf1
    rcases Decidable.em (s.secondsRemaining - 1 ≤ 0) with hc | hc
    · have he : tick s
          = goToNextStep { s with secondsRemaining := s.secondsRemaining - 1 } true := by
        simp [tick, hc]
      have h := goToNextStep_index
        { s with secondsRemaining := s.secondsRemaining - 1 } true hin
      rw [he]
      exact h.2.2 (he ▸ hf1)
    · have he : tick s = { s with secondsRemaining := s.secondsRemaining - 1 } := by
        simp [tick, hc]
      rw [he] at hf1
      simp only at hf1
      rw [hf1] at hf0
      cases hf0
  · intro hf0 hf1
    rw [hskipeq]
    exact hskip.2.2 (hskipeq ▸ hf1)

/-- Witness for C8: applied to the scenario run, whose index 0 is inside
the 7-step sequence; tick, skip and reset all stay inside it. -/
theorem C8_indexInvariant_witness :
    (scenarioRun.steps ≠ []
      ∧ scenarioRun.currentStepIndex < scenarioRun.steps.length)
    ∧ (tick scenarioRun).currentStepIndex < scenarioRun.steps.length
    ∧ (skipStep scenarioRun).currentStepIndex < scenarioRun.steps.length
    ∧ (resetWorkout scenarioRun).currentStepIndex < scenarioRun.steps.length := by
  have h := C8_indexInvariant scenarioRun (by decide) (by decide)
  exact ⟨⟨by decide, by decide⟩, h.2.1.2, h.2.2.2.1.2, h.2.2.2.2.1.2⟩

/-- C9: skipping while the run is Finished (a state the controller only
reaches with the index on the last step, zero seconds remaining, the timer
not running and the interval cleared) changes nothing at all. -/
theorem C9_skipWhenFinished (s : RunState) (hne : s.steps ≠ [])
    (hfin : s.isFinished = true)
    (hlast : s.steps.length ≤ s.currentStepIndex + 1)
    (hsec : s.secondsRemaining = 0) (hrun : s.isRunning = false)
    (hint : s.intervalActive = false) :
    skipStep s = s := by
  obtain ⟨stps, idx, sec, ia, ir, hst, fin⟩ := s
  simp only at hfin hlast hsec hrun hint
  subst hfin hsec hrun hint
  simp [skipStep, hne, goToNextStep, stopTimer, hlast]

/-- Witness for C9: skipping the finished scenario run is the identity. -/
theorem C9_skipWhenFinished_witness :
    (scenarioFinished.steps ≠ []
      ∧ scenarioFinished.isFinished = true
      ∧ scenarioFinished.steps.length ≤ scenarioFinished.currentStepIndex + 1
      ∧ scenarioFinished.secondsRemaining = 0
      ∧ scenarioFinished.isRunning = false
      ∧ scenarioFinished.intervalActive = false)
    ∧ skipStep scenarioFinished = scenarioFinished := by
  refine ⟨⟨by decide, rfl, by decide, rfl, rfl, rfl⟩, ?_⟩
  exact C9_skipWhenFinished scenarioFinished (by decide) rfl (by decide) rfl rfl rfl

/-- C10: `clampInt` returns the fallback untouched (not clamped to `min`)
when the input does not parse as an integer, and `max(min, n)` when it
parses as `n`. -/
theorem C10_clampInt (value : String) (min fallback : Int) :
    (parseIntJS value = none → clampInt value min fallback = fallback)
    ∧ (∀ n : Int, parseIntJS value = some n →
        clampInt value min fallback = max min n) := by
  constructor
  · intro h
    simp [clampInt, h]
  · intro n h
    simp [clampInt, h]

/-- Witness for C10: "abc" does not parse, so `clampInt "abc" 5 0` is the
fallback 0 even though 0 is below the minimum 5; "42x" parses as 42. -/
theorem C10_clampInt_witness :
    (parseIntJS "abc" = none ∧ clampInt "abc" 5 0 = 0)
    ∧ (parseIntJS "42x" = some 42 ∧ clampInt "42x" 5 0 = 42) := by
  refine ⟨⟨?_, ?_⟩, ⟨?_, ?_⟩⟩
  · decide
  · exact (C10_clampInt "abc" 5 0).1 (by decide)
  · decide
  · exact (C10_clampInt "42x" 5 0).2 42 (by decide)

/-- C6: for a sequence built from a configuration with positive repeat
counts, any progress result carries a 1-based exercise position in
`[1, exercisesPerRound]` and a round in `[1, totalRounds]`, computed as
`round = ceil(exerciseCount / exercisesPerRound)` and
`exercisePosition = ((exerciseCount - 1) mod exercisesPerRound) + 1` over
the same-circuit exercise steps up to and including the queried index, with
round 1 / exercise 1 reported while that count is still 0; the query is
unavailable (`none`) for an out-of-range index or a circuit with no
exercises. -/
theorem C6_progressBounds (w : Workout)
    (hRA : 1 ≤ w.circuitA.repeats) (hRB : 1 ≤ w.circuitB.repeats) :
    (∀ i, (buildSteps w).length ≤ i →
      getProgressForStep w (buildSteps w) i = none)
    ∧ (∀ (steps : List Step) (i : Nat) (st : Step), steps.get? i = some st →
        (if st.circuitId = CircuitId.B then w.circuitB.exercises
         else w.circuitA.exercises).length = 0 →
        getProgressForStep w steps i = none)
    ∧ (∀ i r, getProgressForStep w (buildSteps w) i = some r →
        (1 ≤ r.exercise ∧ r.exercise ≤ r.exercisesPerRound
          ∧ 1 ≤ r.round ∧ r.round ≤ r.totalRounds)
        ∧ (((buildSteps w).take (i + 1)).countP (isExerciseOf r.circuitId) = 0 →
            r.round = 1 ∧ r.exercise = 1)
        ∧ (1 ≤ ((buildSteps w).take (i + 1)).countP (isExerciseOf r.circuitId) →
            r.round
                = (((buildSteps w).take (i + 1)).countP (isExerciseOf r.circuitId)
                    + r.exercisesPerRound - 1) / r.exercisesPerRound
              ∧ r.exercise
                = (((buildSteps w).take (i + 1)).countP (isExerciseOf r.circuitId) - 1)
                    % r.exercisesPerRound + 1)) := by
  refine ⟨?_, ?_, ?_⟩
  · intro i hi
    unfold getProgressForStep
    rw [List.get?_eq_none.mpr hi]
  · intro steps i st hget hzero
    unfold getProgressForStep
    rw [hget]
    simp [hzero]
  · intro i r hr
    unfold getProgressForStep at hr
    rcases hget : (buildSteps w).get? i with _ | st
    · rw [hget] at hr
      cases hr
    · rw [hget] at hr
      simp only at hr
      have hmem : st ∈ buildSteps w := List.get?_mem hget
      have hsub : ((buildSteps w).take (i + 1)).countP (isExerciseOf st.circuitId)
          ≤ (buildSteps w).countP (isExerciseOf st.circuitId) :=
        (List.take_sublist (i + 1) (buildSteps w)).countP_le _
      cases hcid : st.circuitId with
      | A =>
        rw [hcid] at hr hsub
        simp only [show (CircuitId.A = CircuitId.B) = False by simp,
          if_false, ite_false] at hr
        rcases Decidable.em (w.circuitA.exercises.length = 0) with hN | hN
        · simp [hN] at hr
        · simp only [hN, if_false, ite_false] at hr
          rw [buildSteps_countP_isExerciseOf_A w] at hsub
          rcases Decidable.em
              (((buildSteps w).take (i + 1)).countP (isExerciseOf CircuitId.A) = 0)
            with h0 | h0
          · rw [if_pos h0] at hr
            obtain rfl := (Option.some_injective _ hr).symm
            refine ⟨⟨le_refl 1, Nat.one_le_iff_ne_zero.mpr hN, le_refl 1, hRA⟩,
              fun _ => ⟨rfl, rfl⟩, fun h1 => ?_⟩
            have h1a : 1 ≤ ((buildSteps w).take (i + 1)).countP
                (isExerciseOf CircuitId.A) := h1
            omega
          · rw [if_neg h0] at hr
            obtain rfl := (Option.some_injective _ hr).symm
            have hb := ceilDiv_bounds
              (((buildSteps w).take (i + 1)).countP (isExerciseOf CircuitId.A))
              w.circuitA.exercises.length w.circuitA.repeats
              (by omega) (by omega) hsub
            have hmod : (((buildSteps w).take (i + 1)).countP (isExerciseOf CircuitId.A) - 1)
                % w.circuitA.exercises.length < w.circuitA.exercises.length :=
              Nat.mod_lt _ (by omega)
            refine ⟨⟨Nat.le_add_left 1 _, hmod, hb.1, hb.2⟩,
              fun hz => ?_, fun _ => ⟨rfl, rfl⟩⟩
            have hza : ((buildSteps w).take (i + 1)).countP
                (isExerciseOf CircuitId.A) = 0 := hz
            omega
      | B =>
        have henb : w.circuitB.enabled = true := mem_buildSteps_B_enabled w st hmem hcid
        rw [hcid] at hr hsub
        simp only [if_pos rfl, ite_true] at hr
        rcases Decidable.em (w.circuitB.exercises.length = 0) with hN | hN
        · simp [hN] at hr
        · simp only [hN, if_false, ite_false] at hr
          rw [buildSteps_countP_isExerciseOf_B w henb] at hsub
          rcases Decidable.em
              (((buildSteps w).take (i + 1)).countP (isExerciseOf CircuitId.B) = 0)
            with h0 | h0
          · rw [if_pos h0] at hr
            obtain rfl := (Option.some_injective _ hr).symm
            refine ⟨⟨le_refl 1, Nat.one_le_iff_ne_zero.mpr hN, le_refl 1, hRB⟩,
              fun _ => ⟨rfl, rfl⟩, fun h1 => ?_⟩
            have h1a : 1 ≤ ((buildSteps w).take (i + 1)).countP
                (isExerciseOf CircuitId.B) := h1
            omega
          · rw [if_neg h0] at hr
            obtain rfl := (Option.some_injective _ hr).symm
            have hb := ceilDiv_bounds
              (((buildSteps w).take (i + 1)).countP (isExerciseOf CircuitId.B))
              w.circuitB.exercises.length w.circuitB.repeats
              (by omega) (by omega) hsub
            have hmod : (((buildSteps w).take (i + 1)).countP (isExerciseOf CircuitId.B) - 1)
                % w.circuitB.exercises.length < w.circuitB.exercises.length :=
              Nat.mod_lt _ (by omega)
            refine ⟨⟨Nat.le_add_left 1 _, hmod, hb.1, hb.2⟩,
              fun hz => ?_, fun _ => ⟨rfl, rfl⟩⟩
            have hza : ((buildSteps w).take (i + 1)).countP
                (isExerciseOf CircuitId.B) = 0 := hz
            omega

/-- Witness for C6: on the enabled-circuit-B scenario, the progress of step
index 2 (the second exercise of circuit A's first round) is round 1 of 2,
exercise 2 of 2, inside the required ranges. -/
theorem C6_progressBounds_witness :
    (1 ≤ scenarioWorkoutB.circuitA.repeats
      ∧ 1 ≤ scenarioWorkoutB.circuitB.repeats
      ∧ getProgressForStep scenarioWorkoutB (buildSteps scenarioWorkoutB) 2
          = some ⟨CircuitId.A, 1, 2, 2, 2⟩)
    ∧ (1 ≤ (⟨CircuitId.A, 1, 2, 2, 2⟩ : Progress).exercise
        ∧ (⟨CircuitId.A, 1, 2, 2, 2⟩ : Progress).exercise
            ≤ (⟨CircuitId.A, 1, 2, 2, 2⟩ : Progress).exercisesPerRound
        ∧ 1 ≤ (⟨CircuitId.A, 1, 2, 2, 2⟩ : Progress).round
        ∧ (⟨CircuitId.A, 1, 2, 2, 2⟩ : Progress).round
            ≤ (⟨CircuitId.A, 1, 2, 2, 2⟩ : Progress).totalRounds) := by
  refine ⟨⟨by decide, by decide, by decide⟩, ?_⟩
  exact ((C6_progressBounds scenarioWorkoutB (by decide) (by decide)).2.2 2
    ⟨CircuitId.A, 1, 2, 2, 2⟩ (by decide)).1

end WorkoutTimer
